import Mathlib

/-!
Verification development for the headline evaluation survey app
(clickbait_test.py and relevance_test.py).

The embedding below models the two pieces of logic the spec documents:

1. `sample_questions` (both variants): filter the pool to rows with
   `status < 8`, group the filtered rows by `content` (pandas `groupby`
   drops rows whose content is null and sorts the group keys), draw one
   row uniformly at random from every group, then draw the batch
   uniformly without replacement from those per-content representatives
   (`.sample(n=10, replace=False)` in the clickbait variant — the draw
   count is hardcoded — and `.sample(n=n, replace=False)` in the
   relevance variant).  pandas raises a ValueError when the requested
   draw count exceeds the population; this is modeled by `Option`, with
   `none` standing for the uncaught exception.

2. The submit handler inside `main`: reject the submission with a fixed
   warning when any judgment is the empty string; otherwise, for every
   response in order, insert one evaluation record and run
   `UPDATE ... SET status = status + 1 WHERE content = _ AND headline = _
   AND beta = _ AND model = _` (skipped when the response content is
   null).

The random source is explicit: every uniform draw consumes one natural
number from a supplied list and reduces it modulo the size of the choice
set, so enumerating residues enumerates the equiprobable outcomes.  A
missing entry is read as 0 (a fixed, arbitrary choice).
-/

namespace HeadlineEval

/-- One row of the survey table, as projected by `load_pairs_data`:
columns content, headline, original, probability, reward, beta, model,
status.  `content` is nullable (the code tests `resp["content"] is None`);
the other text-valued payload columns are kept as opaque strings and
`status` is the eligibility counter. -/
structure Row where
  content : Option String
  headline : String
  original : String
  probability : String
  reward : String
  beta : String
  model : String
  status : Nat
  deriving DecidableEq, Repr

/-- One entry of `user_responses`: the copied row fields plus the radio
value, which is one of "", "Yes", "No" (empty means unjudged). -/
structure Response where
  content : Option String
  headline : String
  original : String
  probability : String
  reward : String
  beta : String
  model : String
  judgment : String
  deriving DecidableEq, Repr

/-- A row inserted into headline_clickbait_evaluation_50_article_all_beta. -/
structure ClickbaitRecord where
  content : Option String
  headline : String
  original : String
  probability : String
  reward : String
  beta : String
  model : String
  clickbait_judgment : String
  start_time : Nat
  submission_time : Nat
  comment : Option String
  deriving DecidableEq, Repr

/-- A row inserted into headline_relevance_evaluation_50_article_all_beta
(this table has no comment column). -/
structure RelevanceRecord where
  content : Option String
  headline : String
  original : String
  probability : String
  reward : String
  beta : String
  model : String
  relevance_judgement : String
  start_time : Nat
  submission_time : Nat
  deriving DecidableEq, Repr

/-- Code-point comparison of character lists, the order pandas uses when
sorting string group keys. -/
def charsLe : List Char → List Char → Bool
  | [], _ => true
  | _ :: _, [] => false
  | a :: as, b :: bs =>
    if a.val < b.val then true
    else if b.val < a.val then false
    else charsLe as bs

/-- Lexicographic string order on code points. -/
def strLe (a b : String) : Bool := charsLe a.data b.data

/-- Insert a key into an ascending list, keeping it ascending. -/
def insertSorted (a : String) : List String → List String
  | [] => [a]
  | b :: bs => if strLe a b then a :: b :: bs else b :: insertSorted a bs

/-- Ascending insertion sort of the group keys (pandas `groupby` sorts
keys by default). -/
def sortKeys : List String → List String
  | [] => []
  | a :: as => insertSorted a (sortKeys as)

/-- Pop one random natural from the explicit random source (0 when the
source is exhausted). -/
def nextRand : List Nat → Nat × List Nat
  | [] => (0, [])
  | r :: rs => (r, rs)

/-- The eligibility filter `df[df["status"] < 8]`. -/
def filterEligible (df : List Row) : List Row :=
  df.filter (fun r => decide (r.status < 8))

/-- The distinct non-null content values of the rows, sorted: the group
keys of `df_filtered.groupby('content')` (pandas drops null keys and
sorts). -/
def groupKeys (rows : List Row) : List String :=
  sortKeys ((rows.filterMap (fun r => r.content)).dedup)

/-- The rows of one content group, in their original order. -/
def groupOf (rows : List Row) (c : String) : List Row :=
  rows.filter (fun r => decide (r.content = some c))

/-- `groupby('content').apply(lambda x: x.sample(n=1))`: one uniformly
random row per content group, in group-key order, consuming one random
natural per group. -/
def pickReps (rows : List Row) : List String → List Nat → List Row
  | [], _ => []
  | c :: cs, rs =>
    match (groupOf rows c)[(nextRand rs).1 % (groupOf rows c).length]? with
    | some x => x :: pickReps rows cs (nextRand rs).2
    | none => pickReps rows cs (nextRand rs).2

/-- One step of `.sample(n, replace=False)`: repeatedly remove a
uniformly chosen element from the remaining population. -/
def uniformSampleGo : Nat → List Row → List Nat → List Row
  | 0, _, _ => []
  | _ + 1, [], _ => []
  | n + 1, x :: xs, rs =>
    (x :: xs).get ⟨(nextRand rs).1 % (x :: xs).length, Nat.mod_lt _ (Nat.succ_pos xs.length)⟩ ::
      uniformSampleGo n ((x :: xs).eraseIdx ((nextRand rs).1 % (x :: xs).length)) (nextRand rs).2

/-- `.sample(n, replace=False)` on a population `xs`: `none` models the
pandas ValueError raised when `n` exceeds the population size, otherwise
an ordered uniform draw of `n` elements without replacement. -/
def uniformSample (xs : List Row) (n : Nat) (rs : List Nat) : Option (List Row) :=
  if xs.length < n then none
  else some (uniformSampleGo n xs rs)

/-- The per-content representatives drawn from the filtered table: the
population the final `.sample` call draws from. -/
def perContentDraw (df_filtered : List Row) (rgs : List Nat) : List Row :=
  pickReps df_filtered (groupKeys df_filtered) rgs

/-- `sample_questions` of clickbait_test.py: filter to `status < 8`, one
random row per content group, then `.sample(n=10, replace=False)` — the
final draw count is the literal 10 and the parameter `n` is unused. -/
def sample_questions_clickbait (df : List Row) (n : Nat) (rgs rss : List Nat) : Option (List Row) :=
  uniformSample (perContentDraw (filterEligible df) rgs) 10 rss

/-- `sample_questions` of relevance_test.py: identical except the final
draw is `.sample(n=n, replace=False)`. -/
def sample_questions_relevance (df : List Row) (n : Nat) (rgs rss : List Nat) : Option (List Row) :=
  uniformSample (perContentDraw (filterEligible df) rgs) n rss

/-- The record built by the clickbait insert: the comment column receives
the session comment text only when the response content is null, else
NULL (`st.session_state["user_comments"] if resp["content"] is None else
None`). -/
def mkClickbaitRecord (startT subT : Nat) (uc : String) (resp : Response) : ClickbaitRecord :=
  { content := resp.content, headline := resp.headline, original := resp.original,
    probability := resp.probability, reward := resp.reward, beta := resp.beta,
    model := resp.model, clickbait_judgment := resp.judgment,
    start_time := startT, submission_time := subT,
    comment := match resp.content with
      | none => some uc
      | some _ => none }

/-- The record built by the relevance insert. -/
def mkRelevanceRecord (startT subT : Nat) (resp : Response) : RelevanceRecord :=
  { content := resp.content, headline := resp.headline, original := resp.original,
    probability := resp.probability, reward := resp.reward, beta := resp.beta,
    model := resp.model, relevance_judgement := resp.judgment,
    start_time := startT, submission_time := subT }

/-- `UPDATE <survey table> SET status = status + 1 WHERE content = %s AND
headline = %s AND beta = %s AND model = %s` with a non-null content
parameter: every matching row is incremented. -/
def updateStatus (pool : List Row) (c h b m : String) : List Row :=
  pool.map (fun row =>
    if row.content = some c ∧ row.headline = h ∧ row.beta = b ∧ row.model = m then
      { row with status := row.status + 1 }
    else row)

/-- One iteration of the submit loop: insert one record, then run the
status update when the response content is not null. -/
def commitStep {α : Type} (mk : Response → α) (acc : List α × List Row) (resp : Response) : List α × List Row :=
  (acc.1 ++ [mk resp],
   match resp.content with
   | some c => updateStatus acc.2 c resp.headline resp.beta resp.model
   | none => acc.2)

/-- The whole submit loop over `user_responses`. -/
def commitLoop {α : Type} (mk : Response → α) (responses : List Response) (acc : List α × List Row) : List α × List Row :=
  responses.foldl (commitStep mk) acc

/-- Result of a submission attempt: when `warning` is set the submission
was rejected with that message and the stores are unchanged; otherwise
`evalTable` and `pool` are the stores after the commit. -/
structure SubmitResult (α : Type) where
  warning : Option String
  evalTable : List α
  pool : List Row
  deriving DecidableEq, Repr

/-- The clickbait submit handler: reject with a fixed warning when any
judgment is empty, otherwise insert one record per response and bump the
status of every row matching each judged response key. -/
def submitAnswers_clickbait (responses : List Response) (startT subT : Nat) (uc : String)
    (evalTable : List ClickbaitRecord) (pool : List Row) : SubmitResult ClickbaitRecord :=
  if responses.any (fun r => decide (r.judgment = "")) then
    { warning := some ("Please answer all questions before submitting."),
      evalTable := evalTable, pool := pool }
  else
    { warning := none,
      evalTable := (commitLoop (mkClickbaitRecord startT subT uc) responses (evalTable, pool)).1,
      pool := (commitLoop (mkClickbaitRecord startT subT uc) responses (evalTable, pool)).2 }

/-- The relevance submit handler (no comment column, same structure). -/
def submitAnswers_relevance (responses : List Response) (startT subT : Nat)
    (evalTable : List RelevanceRecord) (pool : List Row) : SubmitResult RelevanceRecord :=
  if responses.any (fun r => decide (r.judgment = "")) then
    { warning := some ("Please answer all questions before submitting."),
      evalTable := evalTable, pool := pool }
  else
    { warning := none,
      evalTable := (commitLoop (mkRelevanceRecord startT subT) responses (evalTable, pool)).1,
      pool := (commitLoop (mkRelevanceRecord startT subT) responses (evalTable, pool)).2 }

/-- The Streamlit session state slots the script reads and writes:
`start_time`, `df_pairs`, `df_questions`.  `none` means the key is not
present yet. -/
structure SessionState where
  start_time : Option Nat
  df_pairs : Option (List Row)
  df_questions : Option (List Row)
  deriving DecidableEq, Repr

/-- What one run of the script body shows: `crashed` is an uncaught
exception from the draw, `warnedEmpty` is the "No rows available (all
have status >= 8)." branch, `displayed b` renders the batch `b`. -/
inductive RenderOutcome where
  | crashed
  | warnedEmpty
  | displayed (batch : List Row)
  deriving DecidableEq, Repr

/-- A session with none of the three keys set, as on first page load. -/
def initialSession : SessionState :=
  { start_time := none, df_pairs := none, df_questions := none }

/-- One run of the top of `main` in clickbait_test.py: record the start
time if absent, cache the loaded table if absent, cache
`sample_questions(df_pairs, n=10)` if absent (a failing draw leaves the
key unset and the run crashes), then either warn on an empty cached
batch or display it. -/
def render_clickbait (s : SessionState) (now : Nat) (dbRows : List Row) (rgs rss : List Nat) :
    RenderOutcome × SessionState :=
  let s1 := match s.start_time with
    | none => { s with start_time := some now }
    | some _ => s
  let s2 := match s1.df_pairs with
    | none => { s1 with df_pairs := some dbRows }
    | some _ => s1
  match s2.df_questions with
  | none =>
    match sample_questions_clickbait (s2.df_pairs.getD []) 10 rgs rss with
    | none => (RenderOutcome.crashed, s2)
    | some b =>
      let s3 := { s2 with df_questions := some b }
      if b = [] then (RenderOutcome.warnedEmpty, s3) else (RenderOutcome.displayed b, s3)
  | some b =>
    if b = [] then (RenderOutcome.warnedEmpty, s2) else (RenderOutcome.displayed b, s2)

/-- The natural key the status update is scoped by. -/
def rowKey (r : Row) : Option String × String × String × String :=
  (r.content, r.headline, r.beta, r.model)

/-- The same natural key read off a response. -/
def respKey (r : Response) : Option String × String × String × String :=
  (r.content, r.headline, r.beta, r.model)

/-- Whether a pool row is hit by the status update issued for a
response (the four key columns coincide). -/
def rowMatches (resp : Response) (row : Row) : Bool :=
  decide (row.content = resp.content) && decide (row.headline = resp.headline) &&
    decide (row.beta = resp.beta) && decide (row.model = resp.model)

/-- The `user_responses` entry built for a displayed row, given the
rater's radio value. -/
def respOfRow (j : String) (row : Row) : Response :=
  { content := row.content, headline := row.headline, original := row.original,
    probability := row.probability, reward := row.reward, beta := row.beta,
    model := row.model, judgment := j }

/-- One full sample-then-claim round of the clickbait variant: draw a
batch from the pool and submit it with the given judgments; the pool is
unchanged when the draw raises or the submission is rejected. -/
def claimRound_clickbait (pool : List Row) (n : Nat) (rgs rss : List Nat) (js : List String)
    (startT subT : Nat) (uc : String) (evalTable : List ClickbaitRecord) : List Row :=
  match sample_questions_clickbait pool n rgs rss with
  | none => pool
  | some batch =>
    (submitAnswers_clickbait (List.zipWith respOfRow js batch) startT subT uc evalTable pool).pool

/-- The inputs of one round: requested batch size, the two randomness
streams, the judgments, the timestamps, the comment text and the
evaluation table the round appends to. -/
structure RoundInput where
  n : Nat
  rgs : List Nat
  rss : List Nat
  js : List String
  startT : Nat
  subT : Nat
  uc : String
  evalTable : List ClickbaitRecord

/-- A sequence of sample-then-claim rounds over a shared pool. -/
def runRounds (pool : List Row) (ins : List RoundInput) : List Row :=
  ins.foldl (fun p i => claimRound_clickbait p i.n i.rgs i.rss i.js i.startT i.subT i.uc i.evalTable) pool

/-- Modelled from the spec: the weight of an item under the
weighted-complement policy, `w = C - status`. -/
def weight (C : Nat) (r : Row) : Nat := C - r.status

/-- Modelled from the spec: the probability that a single weighted draw
from the eligible items selects `x`, namely `w(x)` over the total
eligible weight ("draw ... items without replacement using probability
proportional to w at each draw").  Stated for comparison with the code
sampler. -/
def weightedFirstProb (C : Nat) (rows : List Row) (x : Row) : Rat :=
  let elig := rows.filter (fun r => decide (r.status < C))
  if x ∈ elig then
    ((weight C x : Nat) : Rat) / (((elig.map (fun r => weight C r)).sum : Nat) : Rat)
  else 0

/-- Shorthand for building a pool row with shared filler payload. -/
def mkRow (c h : String) (st : Nat) : Row :=
  { content := some c, headline := h, original := "o", probability := "p",
    reward := "r", beta := "b", model := "m", status := st }

/-- Fixture: an eligible row with status 0 (weight 8). -/
def rowA : Row := mkRow ("a") ("ha") 0

/-- Fixture: an eligible row with status 7 (weight 1). -/
def rowB : Row := mkRow ("b") ("hb") 7

/-- Fixture: a two-row pool whose items have weights 8 and 1. -/
def poolAB : List Row := [rowA, rowB]

/-- Fixture: ten eligible rows with ten distinct content values. -/
def pool10 : List Row :=
  [mkRow ("a") ("h1") 0, mkRow ("b") ("h2") 0, mkRow ("c") ("h3") 0,
   mkRow ("d") ("h4") 0, mkRow ("e") ("h5") 0, mkRow ("f") ("h6") 0,
   mkRow ("g") ("h7") 0, mkRow ("h") ("h8") 0, mkRow ("i") ("h9") 0,
   mkRow ("j") ("h10") 0]

/-- Fixture: a row sharing the natural key (content, headline, beta,
model) of the first pool10 row but with another original text and a
status already at the ceiling 8. -/
def rowDup8 : Row :=
  { content := some ("a"), headline := "h1", original := "o2", probability := "p",
    reward := "r", beta := "b", model := "m", status := 8 }

/-- Fixture: a row sharing the natural key of the first pool10 row, with
another original text and status 5. -/
def rowDup5 : Row :=
  { content := some ("a"), headline := "h1", original := "o2", probability := "p",
    reward := "r", beta := "b", model := "m", status := 5 }

/-- Fixture: pool10 plus the ceiling-status duplicate-key row. -/
def poolDup : List Row := pool10 ++ [rowDup8]

/-- Inserting into a list permutes consing onto it. -/
theorem insertSorted_perm (a : String) : ∀ l : List String, List.Perm (insertSorted a l) (a :: l) := by
  intro l
  induction l with
  | nil => exact List.Perm.refl _
  | cons b bs ih =>
    simp only [insertSorted]
    by_cases h : strLe a b
    · simp only [h, if_pos]
      exact List.Perm.refl _
    · simp only [h, if_neg, Bool.false_eq_true, not_false_iff]
      exact List.Perm.trans (List.Perm.cons b ih) (List.Perm.swap a b bs)

/-- Sorting the keys permutes them. -/
theorem sortKeys_perm : ∀ l : List String, List.Perm (sortKeys l) l := by
  intro l
  induction l with
  | nil => exact List.Perm.refl _
  | cons a as ih =>
    exact List.Perm.trans (insertSorted_perm a (sortKeys as)) (List.Perm.cons a ih)

/-- The group keys are exactly the distinct non-null contents. -/
theorem mem_groupKeys {rows : List Row} {c : String} :
    c ∈ groupKeys rows ↔ ∃ r ∈ rows, r.content = some c := by
  unfold groupKeys
  rw [(sortKeys_perm _).mem_iff, List.mem_dedup, List.mem_filterMap]

/-- The group keys carry no duplicates. -/
theorem groupKeys_nodup (rows : List Row) : (groupKeys rows).Nodup :=
  ((sortKeys_perm _).nodup_iff).mpr (List.nodup_dedup _)

/-- Membership in a content group. -/
theorem mem_groupOf {rows : List Row} {c : String} {x : Row} :
    x ∈ groupOf rows c ↔ x ∈ rows ∧ x.content = some c := by
  simp [groupOf, List.mem_filter]

/-- Every group named by a group key is inhabited. -/
theorem groupOf_ne_nil {rows : List Row} {c : String} (h : c ∈ groupKeys rows) :
    groupOf rows c ≠ [] := by
  rcases mem_groupKeys.mp h with ⟨r, hr, hc⟩
  intro hnil
  have : r ∈ groupOf rows c := mem_groupOf.mpr ⟨hr, hc⟩
  simp [hnil] at this

/-- The contents of the picked representatives are the group keys, one
each, when every named group is inhabited. -/
theorem pickReps_map_content (rows : List Row) :
    ∀ (keys : List String) (rgs : List Nat), (∀ c ∈ keys, groupOf rows c ≠ []) →
      (pickReps rows keys rgs).map (fun r => r.content) = keys.map some := by
  intro keys
  induction keys with
  | nil => intro rgs _; rfl
  | cons c cs ih =>
    intro rgs h
    have hg : groupOf rows c ≠ [] := h c (List.mem_cons_self c cs)
    have hlen : 0 < (groupOf rows c).length := List.length_pos.mpr hg
    have hlt : (nextRand rgs).1 % (groupOf rows c).length < (groupOf rows c).length :=
      Nat.mod_lt _ hlen
    have hget := List.getElem?_eq_getElem hlt
    have hmem : (groupOf rows c)[(nextRand rgs).1 % (groupOf rows c).length] ∈ groupOf rows c :=
      List.getElem_mem hlt
    have hcontent := (mem_groupOf.mp hmem).2
    simp only [pickReps, hget, List.map_cons, hcontent]
    rw [ih (nextRand rgs).2 (fun k hk => h k (List.mem_cons_of_mem c hk))]

/-- One representative per group key. -/
theorem pickReps_length (rows : List Row) (keys : List String) (rgs : List Nat)
    (h : ∀ c ∈ keys, groupOf rows c ≠ []) :
    (pickReps rows keys rgs).length = keys.length := by
  have := congrArg List.length (pickReps_map_content rows keys rgs h)
  simpa using this

/-- Every representative belongs to some named group. -/
theorem pickReps_mem (rows : List Row) :
    ∀ (keys : List String) (rgs : List Nat) (y : Row), y ∈ pickReps rows keys rgs →
      ∃ c ∈ keys, y ∈ groupOf rows c := by
  intro keys
  induction keys with
  | nil => intro rgs y hy; simp [pickReps] at hy
  | cons c cs ih =>
    intro rgs y hy
    simp only [pickReps] at hy
    rcases hx : (groupOf rows c)[(nextRand rgs).1 % (groupOf rows c).length]? with _ | x
    · rw [hx] at hy
      rcases ih (nextRand rgs).2 y hy with ⟨k, hk, hyk⟩
      exact ⟨k, List.mem_cons_of_mem c hk, hyk⟩
    · rw [hx] at hy
      rcases List.mem_cons.mp hy with h1 | h1
      · subst h1
        rcases List.getElem?_eq_some.mp hx with ⟨hlt, heq⟩
        exact ⟨c, List.mem_cons_self c cs, heq ▸ List.getElem_mem hlt⟩
      · rcases ih (nextRand rgs).2 y h1 with ⟨k, hk, hyk⟩
        exact ⟨k, List.mem_cons_of_mem c hk, hyk⟩

/-- The per-content representatives, projected to contents, are exactly
the sorted distinct contents. -/
theorem perContentDraw_map_content (rows : List Row) (rgs : List Nat) :
    (perContentDraw rows rgs).map (fun r => r.content) = (groupKeys rows).map some :=
  pickReps_map_content rows (groupKeys rows) rgs (fun _ hc => groupOf_ne_nil hc)

/-- There are as many representatives as distinct contents. -/
theorem perContentDraw_length (rows : List Row) (rgs : List Nat) :
    (perContentDraw rows rgs).length = (groupKeys rows).length := by
  have := congrArg List.length (perContentDraw_map_content rows rgs)
  simpa using this

/-- Representatives come from the filtered table. -/
theorem perContentDraw_mem {rows : List Row} {rgs : List Nat} {y : Row}
    (hy : y ∈ perContentDraw rows rgs) : y ∈ rows := by
  rcases pickReps_mem rows (groupKeys rows) rgs y hy with ⟨c, _, hyc⟩
  exact (mem_groupOf.mp hyc).1

/-- Representatives always carry a non-null content (null contents are
dropped by the groupby). -/
theorem perContentDraw_content_ne_none {rows : List Row} {rgs : List Nat} {y : Row}
    (hy : y ∈ perContentDraw rows rgs) : y.content ≠ none := by
  rcases pickReps_mem rows (groupKeys rows) rgs y hy with ⟨c, _, hyc⟩
  rw [(mem_groupOf.mp hyc).2]
  simp

/-- Two distinct representatives never share a content value. -/
theorem perContentDraw_pairwise (rows : List Row) (rgs : List Nat) :
    (perContentDraw rows rgs).Pairwise (fun a b => a.content ≠ b.content) := by
  have hnd : ((groupKeys rows).map some).Nodup :=
    (groupKeys_nodup rows).map (Option.some_injective String)
  rw [← perContentDraw_map_content rows rgs] at hnd
  exact List.pairwise_map.mp hnd

/-- Putting back the picked element recovers the population, up to
order. -/
theorem get_cons_eraseIdx_perm {α : Type} :
    ∀ (l : List α) (i : Nat) (h : i < l.length),
      List.Perm (l.get ⟨i, h⟩ :: l.eraseIdx i) l := by
  intro l
  induction l with
  | nil => intro i h; simp at h
  | cons x t ih =>
    intro i h
    cases i with
    | zero => exact List.Perm.refl _
    | succ j =>
      have hj : j < t.length := Nat.lt_of_succ_lt_succ h
      have step : List.Perm (t.get ⟨j, hj⟩ :: x :: t.eraseIdx j) (x :: t.get ⟨j, hj⟩ :: t.eraseIdx j) :=
        List.Perm.swap x (t.get ⟨j, hj⟩) (t.eraseIdx j)
      exact List.Perm.trans step (List.Perm.cons x (ih j hj))

/-- Every drawn element comes from the population. -/
theorem uniformSampleGo_mem :
    ∀ (n : Nat) (xs : List Row) (rs : List Nat) (y : Row),
      y ∈ uniformSampleGo n xs rs → y ∈ xs := by
  intro n
  induction n with
  | zero => intro xs rs y hy; simp [uniformSampleGo] at hy
  | succ m ih =>
    intro xs rs y hy
    cases xs with
    | nil => simp [uniformSampleGo] at hy
    | cons x t =>
      simp only [uniformSampleGo, List.mem_cons] at hy
      rcases hy with h1 | h1
      · exact h1 ▸ List.get_mem _ _ _
      · exact ((x :: t).eraseIdx_sublist _).mem (ih _ _ y h1)

/-- A draw of `n` from a population of at least `n` returns exactly `n`
elements. -/
theorem uniformSampleGo_length :
    ∀ (n : Nat) (xs : List Row) (rs : List Nat), n ≤ xs.length →
      (uniformSampleGo n xs rs).length = n := by
  intro n
  induction n with
  | zero => intro xs rs _; rfl
  | succ m ih =>
    intro xs rs h
    cases xs with
    | nil => simp at h
    | cons x t =>
      have hlt : (nextRand rs).1 % (x :: t).length < (x :: t).length :=
        Nat.mod_lt _ (Nat.succ_pos t.length)
      have herase : ((x :: t).eraseIdx ((nextRand rs).1 % (x :: t).length)).length = t.length := by
        rw [List.length_eraseIdx, if_pos hlt]
        rfl
      have hm : m ≤ ((x :: t).eraseIdx ((nextRand rs).1 % (x :: t).length)).length := by
        rw [herase]
        exact Nat.le_of_succ_le_succ h
      simp only [uniformSampleGo]
      rw [List.length_cons, ih _ _ hm]

/-- A pairwise property of the population survives the draw. -/
theorem uniformSampleGo_pairwise {R : Row → Row → Prop}
    (hsym : ∀ {x y : Row}, R x y → R y x) :
    ∀ (n : Nat) (xs : List Row) (rs : List Nat), xs.Pairwise R →
      (uniformSampleGo n xs rs).Pairwise R := by
  intro n
  induction n with
  | zero => intro xs rs _; exact List.Pairwise.nil
  | succ m ih =>
    intro xs rs hp
    cases xs with
    | nil => exact List.Pairwise.nil
    | cons x t =>
      have hlt : (nextRand rs).1 % (x :: t).length < (x :: t).length :=
        Nat.mod_lt _ (Nat.succ_pos t.length)
      have hperm := get_cons_eraseIdx_perm (x :: t) _ hlt
      have hp' := (hperm.pairwise_iff hsym).mpr hp
      rcases List.pairwise_cons.mp hp' with ⟨hhead, htail⟩
      simp only [uniformSampleGo]
      exact List.pairwise_cons.mpr
        ⟨fun y hy => hhead y (uniformSampleGo_mem m _ _ y hy), ih _ _ htail⟩

/-- The batch of a successful relevance draw: it has exactly `n` rows,
each from the filtered table, and its contents are pairwise distinct. -/
theorem sample_relevance_some {df : List Row} {n : Nat} {rgs rss : List Nat} {b : List Row}
    (h : sample_questions_relevance df n rgs rss = some b) :
    n ≤ (groupKeys (filterEligible df)).length ∧
      b.length = n ∧
      (∀ y ∈ b, y ∈ filterEligible df) ∧
      b.Pairwise (fun a c => a.content ≠ c.content) ∧
      (∀ y ∈ b, y.content ≠ none) := by
  unfold sample_questions_relevance uniformSample at h
  by_cases hlt : (perContentDraw (filterEligible df) rgs).length < n
  · rw [if_pos hlt] at h
    exact absurd h (by simp)
  · rw [if_neg hlt] at h
    have hle : n ≤ (perContentDraw (filterEligible df) rgs).length := Nat.le_of_not_lt hlt
    have hb : b = uniformSampleGo n (perContentDraw (filterEligible df) rgs) rss :=
      (Option.some_injective _ h).symm
    subst hb
    refine ⟨?_, ?_, ?_, ?_, ?_⟩
    · rw [← perContentDraw_length (filterEligible df) rgs]
      exact hle
    · exact uniformSampleGo_length n _ rss hle
    · intro y hy
      exact perContentDraw_mem (uniformSampleGo_mem n _ rss y hy)
    · exact uniformSampleGo_pairwise (fun h1 h2 => h1 h2.symm) n _ rss
        (perContentDraw_pairwise (filterEligible df) rgs)
    · intro y hy
      exact perContentDraw_content_ne_none (uniformSampleGo_mem n _ rss y hy)

/-- The batch of a successful clickbait draw: it has exactly 10 rows,
each from the filtered table, and its contents are pairwise distinct. -/
theorem sample_clickbait_some {df : List Row} {n : Nat} {rgs rss : List Nat} {b : List Row}
    (h : sample_questions_clickbait df n rgs rss = some b) :
    10 ≤ (groupKeys (filterEligible df)).length ∧
      b.length = 10 ∧
      (∀ y ∈ b, y ∈ filterEligible df) ∧
      b.Pairwise (fun a c => a.content ≠ c.content) ∧
      (∀ y ∈ b, y.content ≠ none) :=
  @sample_relevance_some df 10 rgs rss b h

/-- A row is hit by a response's update exactly when their natural keys
coincide. -/
theorem rowMatches_iff {resp : Response} {row : Row} :
    rowMatches resp row = true ↔ rowKey row = respKey resp := by
  simp [rowMatches, rowKey, respKey, Prod.ext_iff, and_assoc]

/-- Bumping the status leaves the natural key untouched, hence does not
change which updates hit the row. -/
theorem rowMatches_bump (resp : Response) (row : Row) (s : Nat) :
    rowMatches resp { row with status := s } = rowMatches resp row := rfl

/-- Bumping the status leaves the natural key untouched. -/
theorem rowKey_bump (row : Row) (s : Nat) :
    rowKey { row with status := s } = rowKey row := rfl

/-- The response built for a displayed row carries the row's key. -/
theorem respKey_respOfRow (j : String) (row : Row) :
    respKey (respOfRow j row) = rowKey row := rfl

/-- The SQL update, rephrased through `rowMatches` for the issuing
response. -/
theorem updateStatus_eq {resp : Response} {c : String} (hcq : resp.content = some c)
    (pool : List Row) :
    updateStatus pool c resp.headline resp.beta resp.model =
      pool.map (fun row => if rowMatches resp row then { row with status := row.status + 1 } else row) := by
  unfold updateStatus
  apply List.map_congr_left
  intro row _
  apply if_congr _ rfl rfl
  simp [rowMatches, hcq, and_assoc]

/-- The evaluation table side of the submit loop: one record per
response, appended in order. -/
theorem commitLoop_fst {α : Type} (mk : Response → α) :
    ∀ (responses : List Response) (et : List α) (pool : List Row),
      (commitLoop mk responses (et, pool)).1 = et ++ responses.map mk := by
  intro responses
  induction responses with
  | nil => intro et pool; simp [commitLoop]
  | cons resp rest ih =>
    intro et pool
    simp only [commitLoop, List.foldl_cons] at ih ⊢
    cases hc : resp.content with
    | none =>
      rw [show commitStep mk (et, pool) resp = (et ++ [mk resp], pool) by
        simp [commitStep, hc]]
      rw [ih]
      simp
    | some c =>
      rw [show commitStep mk (et, pool) resp =
          (et ++ [mk resp], updateStatus pool c resp.headline resp.beta resp.model) by
        simp [commitStep, hc]]
      rw [ih]
      simp

/-- The pool side of the submit loop, when every response has a non-null
content and no two responses share a natural key: every row matching
some response is bumped exactly once, every other row is untouched. -/
theorem commitLoop_snd {α : Type} (mk : Response → α) :
    ∀ (responses : List Response) (et : List α) (pool : List Row),
      (∀ r ∈ responses, r.content ≠ none) →
      List.Pairwise (fun a b => respKey a ≠ respKey b) responses →
      (commitLoop mk responses (et, pool)).2 =
        pool.map (fun row =>
          if responses.any (fun resp => rowMatches resp row) then
            { row with status := row.status + 1 }
          else row) := by
  intro responses
  induction responses with
  | nil =>
    intro et pool _ _
    simp [commitLoop]
  | cons resp rest ih =>
    intro et pool hc hp
    rcases List.pairwise_cons.mp hp with ⟨hhead, htail⟩
    have hcr : resp.content ≠ none := hc resp (List.mem_cons_self resp rest)
    rcases hcq : resp.content with _ | c
    · exact absurd hcq hcr
    simp only [commitLoop, List.foldl_cons] at ih ⊢
    rw [show commitStep mk (et, pool) resp =
        (et ++ [mk resp], updateStatus pool c resp.headline resp.beta resp.model) by
      simp [commitStep, hcq]]
    rw [ih _ _ (fun r hr => hc r (List.mem_cons_of_mem resp hr)) htail]
    rw [updateStatus_eq hcq pool, List.map_map]
    apply List.map_congr_left
    intro row _
    by_cases hm : rowMatches resp row = true
    · have hrest : rest.any (fun r => rowMatches r row) = false := by
        rw [List.any_eq_false]
        intro r hr hmr
        have h1 : rowKey row = respKey resp := rowMatches_iff.mp hm
        have h2 : rowKey row = respKey r := rowMatches_iff.mp hmr
        exact hhead r hr (h1 ▸ h2)
      have hrest' : rest.any (fun r => rowMatches r { row with status := row.status + 1 }) = false := by
        rw [List.any_eq_false]
        intro r hr
        rw [rowMatches_bump]
        rw [List.any_eq_false] at hrest
        exact hrest r hr
      simp [Function.comp, hm, hrest', List.any_cons]
    · have hm' : rowMatches resp row = false := by
        revert hm
        cases rowMatches resp row <;> simp
      simp [Function.comp, hm', List.any_cons]

/-- Decomposing membership in a zipWith. -/
theorem mem_zipWith {α β γ : Type} (f : α → β → γ) :
    ∀ (as : List α) (bs : List β) (c : γ), c ∈ List.zipWith f as bs →
      ∃ a b, a ∈ as ∧ b ∈ bs ∧ c = f a b := by
  intro as
  induction as with
  | nil => intro bs c hc; simp at hc
  | cons a as ih =>
    intro bs c hc
    cases bs with
    | nil => simp at hc
    | cons b bs =>
      simp only [List.zipWith_cons_cons, List.mem_cons] at hc
      rcases hc with h1 | h1
      · exact ⟨a, b, List.mem_cons_self a as, List.mem_cons_self b bs, h1⟩
      · rcases ih bs c h1 with ⟨a1, b1, ha1, hb1, hab⟩
        exact ⟨a1, b1, List.mem_cons_of_mem a ha1, List.mem_cons_of_mem b hb1, hab⟩

/-- Responses built from a batch with pairwise distinct contents carry
pairwise distinct natural keys. -/
theorem zipWith_respOfRow_pairwise :
    ∀ (js : List String) (bs : List Row),
      bs.Pairwise (fun a b => a.content ≠ b.content) →
      (List.zipWith respOfRow js bs).Pairwise (fun a b => respKey a ≠ respKey b) := by
  intro js
  induction js with
  | nil => intro bs _; exact List.Pairwise.nil
  | cons j js ih =>
    intro bs hp
    cases bs with
    | nil => exact List.Pairwise.nil
    | cons b bs =>
      rcases List.pairwise_cons.mp hp with ⟨hhead, htail⟩
      rw [List.zipWith_cons_cons]
      refine List.pairwise_cons.mpr ⟨?_, ih bs htail⟩
      intro y hy
      rcases mem_zipWith respOfRow js bs y hy with ⟨j1, b1, _, hb1, hyb⟩
      subst hyb
      rw [respKey_respOfRow, respKey_respOfRow]
      intro hkey
      exact hhead b1 hb1 (congrArg Prod.fst hkey)

/-- When the distinct eligible contents are fewer than the requested
draw, the relevance draw raises (pandas ValueError from `.sample`). -/
theorem sample_relevance_none_of_lt (df : List Row) (n : Nat) (rgs rss : List Nat)
    (h : (groupKeys (filterEligible df)).length < n) :
    sample_questions_relevance df n rgs rss = none := by
  have hl : (perContentDraw (filterEligible df) rgs).length < n := by
    rw [perContentDraw_length]
    exact h
  unfold sample_questions_relevance uniformSample
  rw [if_pos hl]

/-- When the distinct eligible contents are fewer than 10, the clickbait
draw raises, whatever `n` was requested. -/
theorem sample_clickbait_none_of_lt (df : List Row) (n : Nat) (rgs rss : List Nat)
    (h : (groupKeys (filterEligible df)).length < 10) :
    sample_questions_clickbait df n rgs rss = none :=
  sample_relevance_none_of_lt df 10 rgs rss h

/-- A successful clickbait draw is never the empty batch. -/
theorem sample_clickbait_batch_ne_nil {df : List Row} {n : Nat} {rgs rss : List Nat}
    {b : List Row} (h : sample_questions_clickbait df n rgs rss = some b) : b ≠ [] := by
  intro hnil
  have hlen := (sample_clickbait_some h).2.1
  rw [hnil] at hlen
  simp at hlen

/-- The submit guard is false exactly when every judgment is non-empty. -/
theorem any_empty_false {responses : List Response}
    (hj : ∀ r ∈ responses, r.judgment ≠ "") :
    responses.any (fun r => decide (r.judgment = "")) = false := by
  rw [List.any_eq_false]
  intro r hr
  simp [hj r hr]

/-- One sample-then-claim round keeps keys pairwise distinct and keeps
every status at or below the ceiling 8, provided the pool keys are
pairwise distinct going in. -/
theorem claimRound_preserves (pool : List Row) (n : Nat) (rgs rss : List Nat) (js : List String)
    (startT subT : Nat) (uc : String) (et : List ClickbaitRecord)
    (hkeys : pool.Pairwise (fun a b => rowKey a ≠ rowKey b))
    (hle : ∀ r ∈ pool, r.status ≤ 8) :
    (claimRound_clickbait pool n rgs rss js startT subT uc et).Pairwise
        (fun a b => rowKey a ≠ rowKey b) ∧
      (∀ r ∈ claimRound_clickbait pool n rgs rss js startT subT uc et, r.status ≤ 8) := by
  have hsym : Symmetric (fun a b : Row => rowKey a ≠ rowKey b) :=
    fun a b h => fun e => h e.symm
  cases hsamp : sample_questions_clickbait pool n rgs rss with
  | none =>
    simp only [claimRound_clickbait, hsamp]
    exact ⟨hkeys, hle⟩
  | some batch =>
    simp only [claimRound_clickbait, hsamp]
    obtain ⟨hK, hBlen, hBsub, hBpair, hBsome⟩ := sample_clickbait_some hsamp
    by_cases hguard :
        (List.zipWith respOfRow js batch).any (fun r => decide (r.judgment = "")) = true
    · unfold submitAnswers_clickbait
      rw [if_pos hguard]
      exact ⟨hkeys, hle⟩
    · unfold submitAnswers_clickbait
      rw [if_neg hguard]
      have hc : ∀ r ∈ List.zipWith respOfRow js batch, r.content ≠ none := by
        intro r hr
        rcases mem_zipWith respOfRow js batch r hr with ⟨j, brow, _, hbrow, heq⟩
        subst heq
        exact hBsome brow hbrow
      have hp : (List.zipWith respOfRow js batch).Pairwise (fun a b => respKey a ≠ respKey b) :=
        zipWith_respOfRow_pairwise js batch hBpair
      have h2 := commitLoop_snd (mkClickbaitRecord startT subT uc)
        (List.zipWith respOfRow js batch) et pool hc hp
      show List.Pairwise (fun a b => rowKey a ≠ rowKey b)
          ((commitLoop (mkClickbaitRecord startT subT uc)
            (List.zipWith respOfRow js batch) (et, pool)).2) ∧
        ∀ r ∈ (commitLoop (mkClickbaitRecord startT subT uc)
          (List.zipWith respOfRow js batch) (et, pool)).2, r.status ≤ 8
      rw [h2]
      have hkeyf : ∀ row : Row,
          rowKey (if (List.zipWith respOfRow js batch).any (fun resp => rowMatches resp row) then
            { row with status := row.status + 1 } else row) = rowKey row := by
        intro row
        by_cases h : (List.zipWith respOfRow js batch).any (fun resp => rowMatches resp row) = true
        · rw [if_pos h]
          rfl
        · rw [if_neg h]
      constructor
      · exact List.Pairwise.map _ (fun a b hab => by rw [hkeyf a, hkeyf b]; exact hab) hkeys
      · intro r hr
        rcases List.mem_map.mp hr with ⟨row, hrow, hfr⟩
        subst hfr
        by_cases h : (List.zipWith respOfRow js batch).any (fun resp => rowMatches resp row) = true
        · rw [if_pos h]
          rcases List.any_eq_true.mp h with ⟨resp, hrespmem, hmatch⟩
          rcases mem_zipWith respOfRow js batch resp hrespmem with ⟨j, brow, _, hbrow, heq⟩
          subst heq
          have hkeyeq : rowKey row = rowKey brow := by
            have h1 := rowMatches_iff.mp hmatch
            rw [respKey_respOfRow] at h1
            exact h1
          have hbrowpool : brow ∈ pool := (List.mem_filter.mp (hBsub brow hbrow)).1
          have hstat : brow.status < 8 := by
            have h1 := (List.mem_filter.mp (hBsub brow hbrow)).2
            simpa using h1
          have hroweq : row = brow := by
            by_contra hne
            exact (List.Pairwise.forall hsym hkeys) hrow hbrowpool hne hkeyeq
          show row.status + 1 ≤ 8
          rw [hroweq]
          exact hstat
        · rw [if_neg h]
          exact hle row hrow

/-- A single relevance draw from poolAB returns the representative at
index r mod 2, whatever the random value r is. -/
theorem sample_relevance_poolAB (r : Nat) :
    sample_questions_relevance poolAB 1 [] [r] =
      some [[rowA, rowB].get ⟨r % 2, Nat.mod_lt r (by norm_num)⟩] := rfl

/-- C1: the claim (and the docstring of `sample_questions`) promises a
draw with probability proportional to the weight 8 - status, but the
code draws uniformly over the per-content representatives: on the pool
{rowA with weight 8, rowB with weight 1} and n = 1, each of the two
equiprobable randomness classes yields a different row, so the code
selects each row with probability 1/2, while the weighted-complement
policy demands 8/9 versus 1/9. -/
theorem sampling_ignores_status_weights :
    sample_questions_relevance poolAB 1 [] [0] = some [rowA] ∧
    sample_questions_relevance poolAB 1 [] [1] = some [rowB] ∧
    (∀ r : Nat, sample_questions_relevance poolAB 1 [] [r] = some [rowA] ∨
      sample_questions_relevance poolAB 1 [] [r] = some [rowB]) ∧
    weight 8 rowA = 8 ∧ weight 8 rowB = 1 ∧
    weightedFirstProb 8 poolAB rowA = 8 / 9 ∧
    weightedFirstProb 8 poolAB rowB = 1 / 9 ∧
    (1 : Rat) / 2 ≠ 8 / 9 := by
  refine ⟨by decide, by decide, ?_, by decide, by decide, ?_, ?_, by norm_num⟩
  · intro r
    rw [sample_relevance_poolAB r]
    rcases Nat.mod_two_eq_zero_or_one r with h | h
    · left
      have hfin : (⟨r % 2, Nat.mod_lt r (by norm_num)⟩ : Fin ([rowA, rowB].length)) =
          ⟨0, by norm_num⟩ := Fin.ext h
      rw [hfin]
      rfl
    · right
      have hfin : (⟨r % 2, Nat.mod_lt r (by norm_num)⟩ : Fin ([rowA, rowB].length)) =
          ⟨1, by norm_num⟩ := Fin.ext h
      rw [hfin]
      rfl
  · norm_num [weightedFirstProb, weight, poolAB, rowA, rowB, mkRow, List.filter]
  · norm_num [weightedFirstProb, weight, poolAB, rowA, rowB, mkRow, List.filter]

/-- C2 counterexample: a pool with a single eligible content and a
requested batch of 2 makes the relevance sampler raise (none), instead
of returning the short batch [rowA] or any handled signal. -/
theorem short_pool_raises_cx :
    sample_questions_relevance [rowA] 2 [] [] = none ∧
    (groupKeys (filterEligible [rowA])).length = 1 ∧
    sample_questions_relevance [rowA] 2 [] [] ≠ some [rowA] := by decide

/-- C2 (amended): when fewer eligible distinct contents remain than the
draw count (the parameter n for the relevance variant, the hardcoded 10
for the clickbait variant), `sample_questions` raises the pandas
ValueError — modeled as none — rather than returning a short batch. -/
theorem short_pool_raises :
    (∀ (df : List Row) (n : Nat) (rgs rss : List Nat),
      (groupKeys (filterEligible df)).length < n →
      sample_questions_relevance df n rgs rss = none) ∧
    (∀ (df : List Row) (n : Nat) (rgs rss : List Nat),
      (groupKeys (filterEligible df)).length < 10 →
      sample_questions_clickbait df n rgs rss = none) :=
  ⟨sample_relevance_none_of_lt, sample_clickbait_none_of_lt⟩

/-- C2 witness: the amended theorem applied to concrete short pools. -/
theorem short_pool_raises_witness :
    sample_questions_relevance [rowA] 2 [] [] = none ∧
    sample_questions_clickbait [rowA] 0 [] [] = none :=
  ⟨short_pool_raises.1 [rowA] 2 [] [] (by decide),
   short_pool_raises.2 [rowA] 0 [] [] (by decide)⟩

/-- C6 counterexample: the clickbait sampler called with n = 3 on a pool
of 10 eligible distinct contents returns a batch of 10 rows, not
min(3, 10) = 3. -/
theorem clickbait_batch_size_not_min_cx :
    (sample_questions_clickbait pool10 3 [] []).map List.length = some 10 ∧
    (groupKeys (filterEligible pool10)).length = 10 ∧
    min 3 (groupKeys (filterEligible pool10)).length = 3 ∧
    (10 : Nat) ≠ 3 := by decide

/-- C6 (amended): every returned batch has pairwise distinct content
values; its size equals min(n, distinct eligible content count) in the
relevance variant, and min(10, distinct eligible content count) in the
clickbait variant, whose draw count is hardcoded to 10 (since a draw
only succeeds when the distinct count reaches the draw count, the min is
the draw count itself). -/
theorem unique_content_and_batch_size :
    (∀ (df : List Row) (n : Nat) (rgs rss : List Nat) (b : List Row),
      sample_questions_relevance df n rgs rss = some b →
      b.Pairwise (fun x y => x.content ≠ y.content) ∧
      b.length = min n (groupKeys (filterEligible df)).length) ∧
    (∀ (df : List Row) (n : Nat) (rgs rss : List Nat) (b : List Row),
      sample_questions_clickbait df n rgs rss = some b →
      b.Pairwise (fun x y => x.content ≠ y.content) ∧
      b.length = min 10 (groupKeys (filterEligible df)).length) := by
  constructor
  · intro df n rgs rss b h
    obtain ⟨hK, hlen, _, hpair, _⟩ := sample_relevance_some h
    exact ⟨hpair, by rw [hlen, Nat.min_eq_left hK]⟩
  · intro df n rgs rss b h
    obtain ⟨hK, hlen, _, hpair, _⟩ := sample_clickbait_some h
    exact ⟨hpair, by rw [hlen, Nat.min_eq_left hK]⟩

/-- C6 witness: the amended theorem applied to concrete draws of both
variants. -/
theorem unique_content_and_batch_size_witness :
    (([rowA] : List Row).Pairwise (fun x y => x.content ≠ y.content) ∧
      ([rowA] : List Row).length = min 1 (groupKeys (filterEligible poolAB)).length) ∧
    (pool10.Pairwise (fun x y => x.content ≠ y.content) ∧
      pool10.length = min 10 (groupKeys (filterEligible pool10)).length) :=
  ⟨unique_content_and_batch_size.1 poolAB 1 [] [0] [rowA] (by decide),
   unique_content_and_batch_size.2 pool10 0 [] [] pool10 (by decide)⟩

/-- C8: the clickbait `sample_questions` ignores its parameter n — on
every pool with at least 10 eligible distinct contents and for every n,
it returns a batch of exactly 10 rows. -/
theorem clickbait_draw_count_hardcoded :
    ∀ (df : List Row) (n : Nat) (rgs rss : List Nat),
      10 ≤ (groupKeys (filterEligible df)).length →
      ∃ b, sample_questions_clickbait df n rgs rss = some b ∧ b.length = 10 := by
  intro df n rgs rss h
  have hle : 10 ≤ (perContentDraw (filterEligible df) rgs).length := by
    rw [perContentDraw_length]
    exact h
  refine ⟨uniformSampleGo 10 (perContentDraw (filterEligible df) rgs) rss, ?_, ?_⟩
  · unfold sample_questions_clickbait uniformSample
    rw [if_neg (Nat.not_lt.mpr hle)]
  · exact uniformSampleGo_length 10 _ rss hle

/-- C8 witness: a 10-row batch comes back even though n = 3 was
requested. -/
theorem clickbait_draw_count_hardcoded_witness :
    ∃ b, sample_questions_clickbait pool10 3 [] [] = some b ∧ b.length = 10 :=
  clickbait_draw_count_hardcoded pool10 3 [] [] (by decide)

/-- C10: the "No rows available" warning branch is unreachable: on a
pool with no eligible row the draw raises before an empty batch could be
observed, a successful draw is never empty, and a fresh session render
therefore never reaches the warnedEmpty outcome. -/
theorem empty_warning_unreachable :
    (∀ (df : List Row) (n : Nat) (rgs rss : List Nat),
      (∀ r ∈ df, 8 ≤ r.status) → sample_questions_clickbait df n rgs rss = none) ∧
    (∀ (df : List Row) (n : Nat) (rgs rss : List Nat) (b : List Row),
      sample_questions_clickbait df n rgs rss = some b → b ≠ []) ∧
    (∀ (now : Nat) (dbRows : List Row) (rgs rss : List Nat),
      (render_clickbait initialSession now dbRows rgs rss).1 ≠ RenderOutcome.warnedEmpty) := by
  refine ⟨?_, ?_, ?_⟩
  · intro df n rgs rss h
    have hnil : filterEligible df = [] := by
      rw [filterEligible, List.filter_eq_nil_iff]
      intro r hr
      simp [Nat.not_lt.mpr (h r hr)]
    apply sample_clickbait_none_of_lt
    rw [hnil]
    norm_num [groupKeys, sortKeys]
  · intro df n rgs rss b h
    exact sample_clickbait_batch_ne_nil h
  · intro now dbRows rgs rss
    simp only [render_clickbait, initialSession]
    cases hsamp : sample_questions_clickbait dbRows 10 rgs rss with
    | none => simp [hsamp]
    | some b =>
      have hb : b ≠ [] := sample_clickbait_batch_ne_nil hsamp
      simp [hsamp, hb]

/-- C10 witness: the three parts instantiated on concrete pools and a
concrete fresh render. -/
theorem empty_warning_unreachable_witness :
    sample_questions_clickbait [mkRow ("a") ("h1") 8] 5 [] [] = none ∧
    pool10 ≠ [] ∧
    (render_clickbait initialSession 0 [] [] []).1 ≠ RenderOutcome.warnedEmpty :=
  ⟨empty_warning_unreachable.1 [mkRow ("a") ("h1") 8] 5 [] [] (by decide),
   empty_warning_unreachable.2.1 pool10 0 [] [] pool10 (by decide),
   empty_warning_unreachable.2.2 0 [] [] []⟩

/-- C7: a session whose df_questions key is already set re-renders to
the identical cached batch — whatever the new clock value, freshly
loaded table or random values are — and the sampler is not consulted
again. -/
theorem session_batch_pinned :
    ∀ (s : SessionState) (now : Nat) (dbRows : List Row) (rgs rss : List Nat) (b : List Row),
      s.df_questions = some b →
      (render_clickbait s now dbRows rgs rss).2.df_questions = some b ∧
      (b ≠ [] → (render_clickbait s now dbRows rgs rss).1 = RenderOutcome.displayed b) := by
  intro s now dbRows rgs rss b hq
  obtain ⟨st, dp, dq⟩ := s
  simp only at hq
  subst hq
  constructor
  · cases st <;> cases dp <;> rcases eq_or_ne b [] with hb | hb <;>
      simp [render_clickbait, hb]
  · intro hb
    cases st <;> cases dp <;> simp [render_clickbait, hb]

/-- C7 witness: re-rendering a concrete session that already holds the
batch [rowA] keeps the batch and displays it. -/
theorem session_batch_pinned_witness :
    (render_clickbait ⟨some 0, some poolAB, some [rowA]⟩ 1 pool10 [5] [7]).2.df_questions =
        some [rowA] ∧
    ([rowA] ≠ [] →
      (render_clickbait ⟨some 0, some poolAB, some [rowA]⟩ 1 pool10 [5] [7]).1 =
        RenderOutcome.displayed [rowA]) :=
  session_batch_pinned ⟨some 0, some poolAB, some [rowA]⟩ 1 pool10 [5] [7] [rowA] rfl

/-- C3 counterexample: two submission attempts whose sets of unjudged
items differ (first item unjudged versus second item unjudged) produce
exactly the same rejection output, a fixed warning string, so the
output cannot report which items are missing. -/
theorem incomplete_submission_generic_cx :
    submitAnswers_clickbait [respOfRow ("") rowA, respOfRow ("Yes") rowB] 0 1 "" [] poolAB =
      submitAnswers_clickbait [respOfRow ("Yes") rowA, respOfRow ("") rowB] 0 1 "" [] poolAB ∧
    (respOfRow ("") rowA).judgment = "" ∧
    (respOfRow ("Yes") rowB).judgment ≠ "" ∧
    (respOfRow ("Yes") rowA).judgment ≠ "" ∧
    (respOfRow ("") rowB).judgment = "" ∧
    (submitAnswers_clickbait [respOfRow ("") rowA, respOfRow ("Yes") rowB] 0 1 "" [] poolAB).warning =
      some ("Please answer all questions before submitting.") := by decide

/-- C3 (amended): a submission with any empty judgment is rejected with
the fixed generic warning — which does not identify the missing items —
and neither evaluation table nor pool is touched, in both variants. -/
theorem incomplete_submission_rejected :
    (∀ (responses : List Response) (startT subT : Nat) (uc : String)
      (et : List ClickbaitRecord) (pool : List Row),
      (∃ r ∈ responses, r.judgment = "") →
      submitAnswers_clickbait responses startT subT uc et pool =
        { warning := some ("Please answer all questions before submitting."),
          evalTable := et, pool := pool }) ∧
    (∀ (responses : List Response) (startT subT : Nat)
      (et : List RelevanceRecord) (pool : List Row),
      (∃ r ∈ responses, r.judgment = "") →
      submitAnswers_relevance responses startT subT et pool =
        { warning := some ("Please answer all questions before submitting."),
          evalTable := et, pool := pool }) := by
  constructor
  · intro responses startT subT uc et pool h
    unfold submitAnswers_clickbait
    rw [if_pos]
    rw [List.any_eq_true]
    rcases h with ⟨r, hr, hj⟩
    exact ⟨r, hr, by simp [hj]⟩
  · intro responses startT subT et pool h
    unfold submitAnswers_relevance
    rw [if_pos]
    rw [List.any_eq_true]
    rcases h with ⟨r, hr, hj⟩
    exact ⟨r, hr, by simp [hj]⟩

/-- C3 witness: the amended theorem applied to a concrete incomplete
submission of each variant. -/
theorem incomplete_submission_rejected_witness :
    submitAnswers_clickbait [respOfRow ("") rowA] 0 1 "" [] poolAB =
      { warning := some ("Please answer all questions before submitting."),
        evalTable := [], pool := poolAB } ∧
    submitAnswers_relevance [respOfRow ("") rowA] 0 1 [] poolAB =
      { warning := some ("Please answer all questions before submitting."),
        evalTable := [], pool := poolAB } :=
  ⟨incomplete_submission_rejected.1 [respOfRow ("") rowA] 0 1 "" [] poolAB
      ⟨respOfRow ("") rowA, List.mem_cons_self _ _, rfl⟩,
   incomplete_submission_rejected.2 [respOfRow ("") rowA] 0 1 [] poolAB
      ⟨respOfRow ("") rowA, List.mem_cons_self _ _, rfl⟩⟩

/-- C4 counterexample: the status update is keyed by (content, headline,
beta, model), so when a pool row outside the batch shares the key of the
judged row, it is incremented too: submitting the single judged row
(original "o") bumps both it and the duplicate-key row rowDup5
(original "o2", not in the batch) from statuses [0, 5] to [1, 6]. -/
theorem duplicate_key_bumps_nonbatch_row_cx :
    (submitAnswers_clickbait [respOfRow ("Yes") (mkRow ("a") ("h1") 0)] 0 1 ""
        [] [mkRow ("a") ("h1") 0, rowDup5]).pool.map (fun r => r.status) = [1, 6] ∧
    rowDup5.status = 5 ∧
    rowDup5.original ≠ (mkRow ("a") ("h1") 0).original := by decide

/-- C4 (amended): when all judgments are non-empty, every response has a
non-null content and no two responses share a natural key, the
submission commits: exactly one evaluation record is appended per judged
item, in order, every pool row whose natural key matches some judged
item has its status incremented by exactly 1, and every pool row whose
key matches no judged item is unchanged — in both variants. -/
theorem submit_success_effects :
    ∀ (responses : List Response) (startT subT : Nat) (uc : String),
      (∀ r ∈ responses, r.judgment ≠ "") →
      (∀ r ∈ responses, r.content ≠ none) →
      List.Pairwise (fun a b => respKey a ≠ respKey b) responses →
      (∀ (et : List ClickbaitRecord) (pool : List Row),
        submitAnswers_clickbait responses startT subT uc et pool =
          { warning := none,
            evalTable := et ++ responses.map (mkClickbaitRecord startT subT uc),
            pool := pool.map (fun row =>
              if responses.any (fun resp => rowMatches resp row) then
                { row with status := row.status + 1 }
              else row) }) ∧
      (∀ (et : List RelevanceRecord) (pool : List Row),
        submitAnswers_relevance responses startT subT et pool =
          { warning := none,
            evalTable := et ++ responses.map (mkRelevanceRecord startT subT),
            pool := pool.map (fun row =>
              if responses.any (fun resp => rowMatches resp row) then
                { row with status := row.status + 1 }
              else row) }) := by
  intro responses startT subT uc hj hc hp
  have hguard := any_empty_false hj
  constructor
  · intro et pool
    unfold submitAnswers_clickbait
    rw [if_neg (by simp [hguard])]
    have h1 := commitLoop_fst (mkClickbaitRecord startT subT uc) responses et pool
    have h2 := commitLoop_snd (mkClickbaitRecord startT subT uc) responses et pool hc hp
    rw [h1, h2]
  · intro et pool
    unfold submitAnswers_relevance
    rw [if_neg (by simp [hguard])]
    have h1 := commitLoop_fst (mkRelevanceRecord startT subT) responses et pool
    have h2 := commitLoop_snd (mkRelevanceRecord startT subT) responses et pool hc hp
    rw [h1, h2]

/-- C4 witness: the amended theorem applied to a concrete one-item
submission over poolAB, in both variants. -/
theorem submit_success_effects_witness :
    (submitAnswers_clickbait [respOfRow ("Yes") rowA] 2 3 ("c") [] poolAB =
      { warning := none,
        evalTable := [] ++ [respOfRow ("Yes") rowA].map (mkClickbaitRecord 2 3 ("c")),
        pool := poolAB.map (fun row =>
          if [respOfRow ("Yes") rowA].any (fun resp => rowMatches resp row) then
            { row with status := row.status + 1 }
          else row) }) ∧
    (submitAnswers_relevance [respOfRow ("Yes") rowA] 2 3 [] poolAB =
      { warning := none,
        evalTable := [] ++ [respOfRow ("Yes") rowA].map (mkRelevanceRecord 2 3),
        pool := poolAB.map (fun row =>
          if [respOfRow ("Yes") rowA].any (fun resp => rowMatches resp row) then
            { row with status := row.status + 1 }
          else row) }) :=
  have h := submit_success_effects [respOfRow ("Yes") rowA] 2 3 ("c")
    (by decide) (by decide) (by decide)
  ⟨h.1 [] poolAB, h.2 [] poolAB⟩

/-- C9: on a successful clickbait submission the persisted comment field
is NULL for every record whose content is non-null, and carries the
session comment text exactly when the record content is null. -/
theorem comment_only_for_null_content :
    ∀ (responses : List Response) (startT subT : Nat) (uc : String)
      (et : List ClickbaitRecord) (pool : List Row),
      (∀ r ∈ responses, r.judgment ≠ "") →
      ∀ rec ∈ ((submitAnswers_clickbait responses startT subT uc et pool).evalTable).drop
          et.length,
        (rec.content ≠ none → rec.comment = none) ∧
        (rec.content = none → rec.comment = some uc) := by
  intro responses startT subT uc et pool hj rec hrec
  have he : (submitAnswers_clickbait responses startT subT uc et pool).evalTable =
      et ++ responses.map (mkClickbaitRecord startT subT uc) := by
    unfold submitAnswers_clickbait
    rw [if_neg (by simp [any_empty_false hj])]
    exact commitLoop_fst _ _ _ _
  rw [he, List.drop_left] at hrec
  rcases List.mem_map.mp hrec with ⟨resp, _, hmk⟩
  subst hmk
  cases hcc : resp.content with
  | none => exact ⟨fun hne => absurd (by simp [mkClickbaitRecord, hcc]) hne,
      fun _ => by simp [mkClickbaitRecord, hcc]⟩
  | some c => exact ⟨fun _ => by simp [mkClickbaitRecord, hcc],
      fun heq => absurd heq (by simp [mkClickbaitRecord, hcc])⟩

/-- C9 witness: the theorem applied to a concrete successful submission
and its single persisted record, whose content is non-null. -/
theorem comment_only_for_null_content_witness :
    ((mkClickbaitRecord 2 3 ("c") (respOfRow ("Yes") rowA)).content ≠ none →
      (mkClickbaitRecord 2 3 ("c") (respOfRow ("Yes") rowA)).comment = none) ∧
    ((mkClickbaitRecord 2 3 ("c") (respOfRow ("Yes") rowA)).content = none →
      (mkClickbaitRecord 2 3 ("c") (respOfRow ("Yes") rowA)).comment = some ("c")) :=
  comment_only_for_null_content [respOfRow ("Yes") rowA] 2 3 ("c") [] poolAB (by decide)
    (mkClickbaitRecord 2 3 ("c") (respOfRow ("Yes") rowA)) (by decide)

/-- C5 counterexample: rowDup8 sits at the ceiling (status 8), is
filtered out of sampling and indeed never selected — the concrete draw
returns exactly the ten pool10 rows — yet after one sample-then-claim
round its status is 9, past the ceiling, because the keyed update also
hits it (it shares the natural key of a selected row). -/
theorem ceiling_exceeded_duplicate_key_cx :
    sample_questions_clickbait poolDup 0 [] [] = some pool10 ∧
    rowDup8 ∉ pool10 ∧
    rowDup8 ∈ poolDup ∧
    rowDup8.status = 8 ∧
    (claimRound_clickbait poolDup 0 [] [] (List.replicate 10 ("Yes")) 0 1 "" []).map
        (fun r => r.status) = [1, 1, 1, 1, 1, 1, 1, 1, 1, 1, 9] ∧
    ¬(9 ≤ 8) := by decide

/-- C5 (amended): provided no two pool rows share a natural key
(content, headline, beta, model), any sequence of sample-then-claim
rounds keeps every status at or below the ceiling 8: rows at the ceiling
are excluded by the eligibility filter, never selected, and — keys being
unique — never hit by the keyed update either. -/
theorem status_ceiling_with_unique_keys :
    ∀ (ins : List RoundInput) (pool : List Row),
      pool.Pairwise (fun a b => rowKey a ≠ rowKey b) →
      (∀ r ∈ pool, r.status ≤ 8) →
      ∀ r ∈ runRounds pool ins, r.status ≤ 8 := by
  intro ins
  induction ins with
  | nil =>
    intro pool _ hle
    simpa [runRounds] using hle
  | cons i rest ih =>
    intro pool hkeys hle
    have h := claimRound_preserves pool i.n i.rgs i.rss i.js i.startT i.subT i.uc i.evalTable
      hkeys hle
    exact ih (claimRound_clickbait pool i.n i.rgs i.rss i.js i.startT i.subT i.uc i.evalTable)
      h.1 h.2

/-- C5 witness: the amended theorem applied to a concrete round over
pool10 (unique keys), evaluated at the bumped first row of the result. -/
theorem status_ceiling_with_unique_keys_witness :
    (mkRow ("a") ("h1") 1).status ≤ 8 :=
  status_ceiling_with_unique_keys
    [⟨0, [], [], List.replicate 10 ("Yes"), 0, 1, "", []⟩] pool10
    (by decide) (by decide) (mkRow ("a") ("h1") 1) (by decide)

end HeadlineEval
